import Mathlib

/-!
Shallow embedding of the YOLO-v11 ANPR surveillance pipeline's core:
the vehicle tracker, the plate proposer, and the PTZ controller stack
(onvif client rate limiting, controller hysteresis and zoom state, and
the preset manager's idle behaviour).  Pixel coordinates and wall-clock
times are embedded as rationals; Python dictionaries become association
lists kept in insertion order.
-/

namespace ANPR

set_option maxRecDepth 100000

/-! ### Bounding boxes — src/shared/events/schemas.py -/

structure BoundingBox where
  x1 : ℚ
  y1 : ℚ
  x2 : ℚ
  y2 : ℚ
deriving DecidableEq, Repr

def BoundingBox.center (b : BoundingBox) : ℚ × ℚ :=
  ((b.x1 + b.x2) / 2, (b.y1 + b.y2) / 2)

def BoundingBox.width (b : BoundingBox) : ℚ := b.x2 - b.x1

def BoundingBox.height (b : BoundingBox) : ℚ := b.y2 - b.y1

def BoundingBox.area (b : BoundingBox) : ℚ := b.width * b.height

/-- Reconstruction of a box from its center, width and height via
`(cx - w/2, cy - h/2, cx + w/2, cy + h/2)` (the spec's round-trip formula). -/
def BoundingBox.fromCenterSize (cx cy w h : ℚ) : BoundingBox :=
  { x1 := cx - w / 2, y1 := cy - h / 2, x2 := cx + w / 2, y2 := cy + h / 2 }

inductive VehicleClass
  | car
  | truck
  | bus
  | motorcycle
  | unknown
deriving DecidableEq, Repr

structure Detection where
  bbox : BoundingBox
  cls : VehicleClass
  confidence : ℚ
deriving DecidableEq, Repr

/-! ### Track — src/services/vision-service/tracker.py, class Track -/

structure Track where
  track_id : Nat
  bbox : BoundingBox
  cls : VehicleClass
  confidence : ℚ
  age : Nat
  hits : Nat
  time_since_update : Nat
  trajectory : List (ℚ × ℚ)
  velocity : ℚ × ℚ
deriving DecidableEq, Repr

/-- `deque(maxlen=30)` append: push on the right, dropping from the left
when the capacity of 30 is exceeded. -/
def pushTraj (traj : List (ℚ × ℚ)) (c : ℚ × ℚ) : List (ℚ × ℚ) :=
  let t := traj ++ [c]
  if 30 < t.length then t.drop (t.length - 30) else t

/-- `Track.__init__`: age 0, hits 1, time_since_update 0, trajectory seeded
with the box center, velocity (0, 0). -/
def Track.new (track_id : Nat) (bbox : BoundingBox) (cls : VehicleClass)
    (confidence : ℚ) : Track :=
  { track_id := track_id
    bbox := bbox
    cls := cls
    confidence := confidence
    age := 0
    hits := 1
    time_since_update := 0
    trajectory := [bbox.center]
    velocity := (0, 0) }

/-- `Track.update`: adopt the detection box and confidence, increment hits,
reset time_since_update, append the new center and recompute velocity from
the last two centers when the trajectory holds at least two. -/
def Track.update (t : Track) (bbox : BoundingBox) (confidence : ℚ) : Track :=
  let center := bbox.center
  let traj := pushTraj t.trajectory center
  let vel :=
    if 2 ≤ traj.length then
      match traj.get? (traj.length - 2) with
      | some prev => (center.1 - prev.1, center.2 - prev.2)
      | none => t.velocity
    else t.velocity
  { t with bbox := bbox
           confidence := confidence
           hits := t.hits + 1
           time_since_update := 0
           trajectory := traj
           velocity := vel }

/-- `Track.predict`: increment age and time_since_update, and shift the box
by the velocity when the velocity is nonzero. -/
def Track.predict (t : Track) : Track :=
  let t' := { t with age := t.age + 1, time_since_update := t.time_since_update + 1 }
  if t.velocity = (0, 0) then t'
  else
    { t' with bbox :=
        { x1 := t.bbox.x1 + t.velocity.1
          y1 := t.bbox.y1 + t.velocity.2
          x2 := t.bbox.x2 + t.velocity.1
          y2 := t.bbox.y2 + t.velocity.2 } }

/-! ### VehicleTracker — src/services/vision-service/tracker.py -/

/-- `VehicleTracker.calculate_iou`. -/
def calculate_iou (bbox1 bbox2 : BoundingBox) : ℚ :=
  let x1 := max bbox1.x1 bbox2.x1
  let y1 := max bbox1.y1 bbox2.y1
  let x2 := min bbox1.x2 bbox2.x2
  let y2 := min bbox1.y2 bbox2.y2
  if x2 < x1 ∨ y2 < y1 then 0
  else
    let intersection := (x2 - x1) * (y2 - y1)
    let union := bbox1.area + bbox2.area - intersection
    if union = 0 then 0 else intersection / union

/-- The inner loop of `_associate_detections` scanning enumerated detections
for the best IoU above the threshold; `iou > best_iou` is strict, so the
first detection reaching the maximum (lowest index) is kept. -/
def bestDetAux (thr : ℚ) (tb : BoundingBox) (used : List Nat) :
    List (Nat × Detection) → ℚ → Option (Nat × Detection) → Option (Nat × Detection)
  | [], _, best => best
  | (i, d) :: rest, bestIou, best =>
    if i ∈ used then bestDetAux thr tb used rest bestIou best
    else
      let iou := calculate_iou tb d.bbox
      if bestIou < iou ∧ thr < iou then bestDetAux thr tb used rest iou (some (i, d))
      else bestDetAux thr tb used rest bestIou best

def bestDet (thr : ℚ) (tb : BoundingBox) (dets : List (Nat × Detection))
    (used : List Nat) : Option (Nat × Detection) :=
  bestDetAux thr tb used dets 0 none

/-- The outer loop of `_associate_detections` over the tracks in dictionary
(insertion) order, threading the claimed-detection set.  Returns the updated
tracks (same order), the claimed detection indices and the matched track ids
in scan order. -/
def associateLoop (thr : ℚ) (dets : List (Nat × Detection)) :
    List Track → List Nat → List Track × List Nat × List Nat
  | [], used => ([], used, [])
  | t :: rest, used =>
    match bestDet thr t.bbox dets used with
    | none =>
      let r := associateLoop thr dets rest used
      (t :: r.1, r.2.1, r.2.2)
    | some (i, d) =>
      let r := associateLoop thr dets rest (i :: used)
      (Track.update t d.bbox d.confidence :: r.1, r.2.1, t.track_id :: r.2.2)

/-- The tail of `_associate_detections`: create a new track for every
detection index not claimed, allocating ids from `next_id` upward. -/
def spawnNew (used : List Nat) :
    List (Nat × Detection) → Nat → List Track × Nat
  | [], next => ([], next)
  | (i, d) :: rest, next =>
    if i ∈ used then spawnNew used rest next
    else
      let r := spawnNew used rest (next + 1)
      (Track.new next d.bbox d.cls d.confidence :: r.1, r.2)

structure VehicleTracker where
  max_age : Nat
  min_hits : Nat
  iou_threshold : ℚ
  tracks : List Track
  next_id : Nat
deriving DecidableEq, Repr

/-- `VehicleTracker.update`: predict every track, associate detections
(when any), drop tracks with `time_since_update > max_age`, and return the
tracks with `hits >= min_hits`. -/
def VehicleTracker.update (st : VehicleTracker) (detections : List Detection) :
    VehicleTracker × List Track :=
  let predicted := st.tracks.map Track.predict
  let assoc :=
    if detections.isEmpty then (predicted, st.next_id)
    else
      let r := associateLoop st.iou_threshold detections.enum predicted []
      let s := spawnNew r.2.1 detections.enum st.next_id
      (r.1 ++ s.1, s.2)
  let alive := assoc.1.filter fun t => t.time_since_update ≤ st.max_age
  let confirmed := alive.filter fun t => st.min_hits ≤ t.hits
  ({ st with tracks := alive, next_id := assoc.2 }, confirmed)

/-! ### PlateProposer — src/services/vision-service/plate_proposer.py -/

/-- Association-list lookup for `stable_tracks` (first binding wins, as a
Python dict with unique keys). -/
def lookupCount (m : List (Nat × Nat)) (k : Nat) : Option Nat :=
  match m with
  | [] => none
  | (k', v) :: rest => if k' = k then some v else lookupCount rest k

/-- `stable_tracks[k] = v`: replace the binding in place or append. -/
def setCount (m : List (Nat × Nat)) (k : Nat) (v : Nat) : List (Nat × Nat) :=
  match m with
  | [] => [(k, v)]
  | (k', v') :: rest => if k' = k then (k, v) :: rest else (k', v') :: setCount rest k v

/-- `del stable_tracks[k]` (no-op when absent, as in `reset_stability`). -/
def removeCount (m : List (Nat × Nat)) (k : Nat) : List (Nat × Nat) :=
  match m with
  | [] => []
  | (k', v') :: rest => if k' = k then rest else (k', v') :: removeCount rest k

structure PlateProposer where
  min_plate_height : ℚ
  target_plate_height : ℚ
  stability_frames : Nat
  stable_tracks : List (Nat × Nat)
deriving DecidableEq, Repr

/-- `PlateProposer.estimate_plate_region`: plate height 15% of the vehicle
height, width 60% of its width, horizontally centered, top at
`y2 - 0.25 * height`. -/
def PlateProposer.estimate_plate_region (track : Track) : BoundingBox :=
  let vehicle := track.bbox
  let plate_height := vehicle.height * (15 / 100)
  let plate_width := vehicle.width * (6 / 10)
  let plate_x1 := vehicle.x1 + (vehicle.width - plate_width) / 2
  let plate_y1 := vehicle.y2 - vehicle.height * (25 / 100)
  { x1 := plate_x1
    y1 := plate_y1
    x2 := plate_x1 + plate_width
    y2 := plate_y1 + plate_height }

/-- `PlateProposer.is_ready_for_capture`: returns `(is_ready, zoom_factor)`
together with the proposer state after the call.  The stability counter of
the track is created at 0 when absent and incremented, but only when the
plate clears the minimum height check. -/
def PlateProposer.is_ready_for_capture (p : PlateProposer) (track : Track)
    (plate_bbox : BoundingBox) : Bool × ℚ × PlateProposer :=
  let current_height := plate_bbox.height
  if current_height < p.min_plate_height then
    (false, p.target_plate_height / current_height, p)
  else
    let track_id := track.track_id
    let cnt := (lookupCount p.stable_tracks track_id).getD 0 + 1
    let p' := { p with stable_tracks := setCount p.stable_tracks track_id cnt }
    if cnt < p.stability_frames then (false, 1, p')
    else if p.target_plate_height ≤ current_height then (true, 1, p')
    else (false, p.target_plate_height / current_height, p')

/-- `PlateProposer.reset_stability`. -/
def PlateProposer.reset_stability (p : PlateProposer) (track_id : Nat) : PlateProposer :=
  { p with stable_tracks := removeCount p.stable_tracks track_id }

/-- `PlateProposer.cleanup_old_tracks`: drop bindings for inactive ids. -/
def PlateProposer.cleanup_old_tracks (p : PlateProposer) (active : List Nat) : PlateProposer :=
  { p with stable_tracks := p.stable_tracks.filter fun kv => kv.1 ∈ active }

/-! ### PTZ device commands and the onvif client —
src/services/ptz-controller/onvif_client.py -/

/-- A motion command as handed to the device (translation components are
clamped into the onvif range before the request is sent). -/
inductive PTZCmd
  | relativeMove (pan tilt zoom speed : ℚ)
  | absoluteMove (pan tilt zoom speed : ℚ)
  | gotoPreset (token : Nat)
deriving DecidableEq, Repr

def PTZCmd.isGotoPreset : PTZCmd → Bool
  | .gotoPreset _ => true
  | _ => false

/-- Clamp into [-1, 1] as `max(-1.0, min(1.0, x))`. -/
def clampPM (x : ℚ) : ℚ := max (-1) (min 1 x)

structure PTZClientState where
  last_move_time : ℚ
  move_rate_limit_s : ℚ
deriving DecidableEq, Repr

/-- `PTZClient._check_rate_limit`: the move is allowed unless the elapsed
time since the last accepted move is below the limit. -/
def check_rate_limit (c : PTZClientState) (now : ℚ) : Bool :=
  ¬ (now - c.last_move_time < c.move_rate_limit_s)

/-- `PTZClient.relative_move`; `devOk` models whether the device accepts the
request (a `Fault` leaves `last_move_time` unchanged and returns false, but
the request was attempted). -/
def relative_move (c : PTZClientState) (now : ℚ) (devOk : Bool)
    (pan tilt zoom speed : ℚ) : Bool × PTZClientState × List PTZCmd :=
  if ¬ check_rate_limit c now then (false, c, [])
  else
    let cmd := PTZCmd.relativeMove (clampPM pan) (clampPM tilt) (clampPM zoom) speed
    if devOk then (true, { c with last_move_time := now }, [cmd])
    else (false, c, [cmd])

/-- `PTZClient.goto_preset`. -/
def goto_preset (c : PTZClientState) (now : ℚ) (devOk : Bool) (token : Nat) :
    Bool × PTZClientState × List PTZCmd :=
  if ¬ check_rate_limit c now then (false, c, [])
  else
    let cmd := PTZCmd.gotoPreset token
    if devOk then (true, { c with last_move_time := now }, [cmd])
    else (false, c, [cmd])

/-! ### PresetManager — src/services/ptz-controller/preset_manager.py -/

structure Preset where
  token : Nat
  pan : ℚ
  tilt : ℚ
  zoom : ℚ
deriving DecidableEq, Repr

structure PresetManagerState where
  presets : List Preset
  current_preset_idx : Nat
  idle_enabled : Bool
  idle_timeout_s : ℚ
  default_preset_id : Nat
  sweep_enabled : Bool
  sweep_interval_s : ℚ
  last_activity_time : ℚ
  is_idle : Bool
deriving DecidableEq, Repr

/-- `PresetManager.mark_activity`: refresh the activity clock and clear the
idle flag. -/
def mark_activity (m : PresetManagerState) (now : ℚ) : PresetManagerState :=
  { m with last_activity_time := now, is_idle := false }

def findPreset (ps : List Preset) (preset_id : Nat) : Option Preset :=
  ps.find? fun p => p.token == preset_id

/-- `PresetManager.goto_preset_by_id`: look the preset up by token, issue the
goto, and on success mark activity. -/
def goto_preset_by_id (m : PresetManagerState) (c : PTZClientState) (now : ℚ)
    (devOk : Bool) (preset_id : Nat) :
    Bool × PresetManagerState × PTZClientState × List PTZCmd :=
  match findPreset m.presets preset_id with
  | none => (false, m, c, [])
  | some _ =>
    match goto_preset c now devOk preset_id with
    | (ok, c', cmds) =>
      if ok then (true, mark_activity m now, c', cmds)
      else (false, m, c', cmds)

/-- `PresetManager.next_preset`: advance the index (wrapping) and issue a
goto to that preset; does not mark activity. -/
def next_preset (m : PresetManagerState) (c : PTZClientState) (now : ℚ)
    (devOk : Bool) : Bool × PresetManagerState × PTZClientState × List PTZCmd :=
  match m.presets with
  | [] => (false, m, c, [])
  | _ :: _ =>
    let idx := (m.current_preset_idx + 1) % m.presets.length
    let m' := { m with current_preset_idx := idx }
    match m.presets.get? idx with
    | none => (false, m', c, [])
    | some p =>
      match goto_preset c now devOk p.token with
      | (ok, c', cmds) => (ok, m', c', cmds)

/-- One iteration of `PresetManager._idle_monitor_loop` (sleeps elided):
enter idle and return to the default preset when the timeout is exceeded,
then run one sweep step when sweeping is enabled and the manager is (still)
idle. -/
def idle_tick (m : PresetManagerState) (c : PTZClientState) (now : ℚ)
    (devOk : Bool) : PresetManagerState × PTZClientState × List PTZCmd :=
  let elapsed := now - m.last_activity_time
  let step1 : PresetManagerState × PTZClientState × List PTZCmd :=
    if m.idle_enabled = true ∧ m.idle_timeout_s < elapsed then
      if m.is_idle = false then
        let mI := { m with is_idle := true }
        if m.default_preset_id ≠ 0 then
          match goto_preset_by_id mI c now devOk m.default_preset_id with
          | (_, m2, c2, cmds) => (m2, c2, cmds)
        else (mI, c, [])
      else (m, c, [])
    else (m, c, [])
  match step1 with
  | (m1, c1, cmds1) =>
    if m1.sweep_enabled = true ∧ m1.is_idle = true then
      match next_preset m1 c1 now devOk with
      | (_, m2, c2, cmds2) => (m2, c2, cmds1 ++ cmds2)
    else (m1, c1, cmds1)

/-! ### PTZController — src/services/ptz-controller/controller.py -/

structure PTZControllerState where
  hysteresis_pixels : ℚ
  pan_speed : ℚ
  tilt_speed : ℚ
  zoom_step : ℚ
  last_target_position : Option (ℚ × ℚ)
  current_zoom : ℚ
deriving DecidableEq, Repr

/-- `PTZController.__init__`: no last target recorded, software zoom 0. -/
def mkController (hysteresis_pixels pan_speed tilt_speed zoom_step : ℚ) :
    PTZControllerState :=
  { hysteresis_pixels := hysteresis_pixels
    pan_speed := pan_speed
    tilt_speed := tilt_speed
    zoom_step := zoom_step
    last_target_position := none
    current_zoom := 0 }

/-- The controller stack: controller software state, onvif client state and
the preset manager that receives `mark_activity`. -/
structure PTZSystem where
  ctrl : PTZControllerState
  client : PTZClientState
  pm : PresetManagerState
deriving DecidableEq, Repr

/-- `PTZController.point_to_target`: hysteresis dead-zone check against the
last target position, then a relative move with
`pan = (tx - W/2) / W` and `tilt = -(ty - H/2) / H`. -/
def point_to_target (s : PTZSystem) (now : ℚ) (devOk : Bool)
    (target_x target_y frame_width frame_height : ℚ) :
    Bool × PTZSystem × List PTZCmd :=
  let center_x := frame_width / 2
  let center_y := frame_height / 2
  let offset_x := target_x - center_x
  let offset_y := target_y - center_y
  let inHysteresis : Bool :=
    match s.ctrl.last_target_position with
    | some (last_x, last_y) =>
      decide (|target_x - last_x| < s.ctrl.hysteresis_pixels) &&
      decide (|target_y - last_y| < s.ctrl.hysteresis_pixels)
    | none => false
  if inHysteresis then (false, s, [])
  else
    let pan_offset := offset_x / frame_width
    let tilt_offset := -offset_y / frame_height
    match relative_move s.client now devOk pan_offset tilt_offset 0 s.ctrl.pan_speed with
    | (ok, c', cmds) =>
      if ok then
        (true,
         { ctrl := { s.ctrl with last_target_position := some (target_x, target_y) }
           client := c'
           pm := mark_activity s.pm now },
         cmds)
      else (false, { s with client := c' }, cmds)

/-- `PTZController.zoom_to_target`: step the zoom by `zoom_step` when the
needed factor leaves the [0.8, 1.2] band; software zoom is committed only on
a successful device command. -/
def zoom_to_target (s : PTZSystem) (now : ℚ) (devOk : Bool)
    (target_height desired_height : ℚ) : Bool × PTZSystem × List PTZCmd :=
  if target_height ≤ 0 then (false, s, [])
  else
    let zoom_factor := desired_height / target_height
    let zoom_change? : Option ℚ :=
      if 6 / 5 < zoom_factor then some s.ctrl.zoom_step
      else if zoom_factor < 4 / 5 then some (-s.ctrl.zoom_step)
      else none
    match zoom_change? with
    | none => (false, s, [])
    | some zoom_change =>
      let new_zoom := max 0 (min 1 (s.ctrl.current_zoom + zoom_change))
      match relative_move s.client now devOk 0 0 zoom_change (3 / 10) with
      | (ok, c', cmds) =>
        if ok then
          (true,
           { ctrl := { s.ctrl with current_zoom := new_zoom }
             client := c'
             pm := mark_activity s.pm now },
           cmds)
        else (false, { s with client := c' }, cmds)

/-! ### Concrete instances used in counterexamples and witnesses -/

def det0 : Detection :=
  { bbox := { x1 := 0, y1 := 0, x2 := 10, y2 := 10 }
    cls := .car
    confidence := 9 / 10 }

def tracker0 : VehicleTracker :=
  { max_age := 1
    min_hits := 1
    iou_threshold := 3 / 10
    tracks := []
    next_id := 1 }

/-- The tracker state after one frame with one detection and one frame with
no detections: its single track was confirmed yet missed this frame. -/
def tracker2 : VehicleTracker × List Track :=
  VehicleTracker.update (VehicleTracker.update tracker0 [det0]).1 []

def proposer0 : PlateProposer :=
  { min_plate_height := 30
    target_plate_height := 60
    stability_frames := 3
    stable_tracks := [] }

def vehicleTrack0 : Track :=
  Track.new 1 { x1 := 0, y1 := 0, x2 := 300, y2 := 400 } .car (9 / 10)

def plate0 : BoundingBox := PlateProposer.estimate_plate_region vehicleTrack0

def c2call1 : Bool × ℚ × PlateProposer :=
  proposer0.is_ready_for_capture vehicleTrack0 plate0

def c2call2 : Bool × ℚ × PlateProposer :=
  c2call1.2.2.is_ready_for_capture vehicleTrack0 plate0

def c2call3 : Bool × ℚ × PlateProposer :=
  c2call2.2.2.is_ready_for_capture vehicleTrack0 plate0

def c2call4 : Bool × ℚ × PlateProposer :=
  c2call3.2.2.is_ready_for_capture vehicleTrack0 plate0

/-- A proposer that already holds a stability counter of 5 for track 1. -/
def proposer1 : PlateProposer :=
  { min_plate_height := 30
    target_plate_height := 60
    stability_frames := 3
    stable_tracks := [(1, 5)] }

def smallTrack : Track :=
  Track.new 2 { x1 := 0, y1 := 0, x2 := 10, y2 := 20 } .car (9 / 10)

/-- A plate box of height 20, below the 30-pixel minimum of `proposer1`. -/
def smallPlate : BoundingBox := { x1 := 0, y1 := 0, x2 := 40, y2 := 20 }

def freshTrack : Track :=
  Track.new 1 { x1 := 0, y1 := 0, x2 := 10, y2 := 10 } .car (9 / 10)

/-- Two tracks of the spec's greedy-association scenario. -/
def c5tracks : List Track :=
  [Track.new 1 { x1 := 0, y1 := 0, x2 := 50, y2 := 50 } .car (9 / 10),
   Track.new 2 { x1 := 100, y1 := 0, x2 := 150, y2 := 50 } .car (9 / 10)]

def c5dets : List Detection :=
  [{ bbox := { x1 := 5, y1 := 0, x2 := 55, y2 := 50 }, cls := .car, confidence := 9 / 10 },
   { bbox := { x1 := 105, y1 := 0, x2 := 155, y2 := 50 }, cls := .car, confidence := 9 / 10 }]

def client0 : PTZClientState := { last_move_time := -10, move_rate_limit_s := 2 }

def clientBusy : PTZClientState := { last_move_time := 10, move_rate_limit_s := 2 }

def presets0 : List Preset :=
  [{ token := 1, pan := 0, tilt := 0, zoom := 0 },
   { token := 2, pan := 1 / 2, tilt := 0, zoom := 0 }]

def pm0 : PresetManagerState :=
  { presets := presets0
    current_preset_idx := 0
    idle_enabled := true
    idle_timeout_s := 1
    default_preset_id := 2
    sweep_enabled := true
    sweep_interval_s := 60
    last_activity_time := 0
    is_idle := false }

def sys0 : PTZSystem :=
  { ctrl := mkController 50 (1 / 2) (1 / 2) (1 / 10)
    client := client0
    pm := pm0 }

/-- The system after a first successful `point_to_target` at (640, 360). -/
def sysAfterPoint : PTZSystem := (point_to_target sys0 0 true 640 360 1280 720).2.1

def sysBusy : PTZSystem :=
  { ctrl := mkController 50 (1 / 2) (1 / 2) (1 / 10)
    client := clientBusy
    pm := pm0 }

/-! ### Association-list lemmas for the proposer's stability counters -/

theorem lookupCount_setCount_self (m : List (Nat × Nat)) (k v : Nat) :
    lookupCount (setCount m k v) k = some v := by
  induction m with
  | nil => simp [setCount, lookupCount]
  | cons kv rest ih =>
    obtain ⟨k', v'⟩ := kv
    by_cases h : k' = k
    · simp [setCount, lookupCount, h]
    · simp [setCount, lookupCount, h, ih]

theorem lookupCount_setCount_ne (m : List (Nat × Nat)) (k v j : Nat) (hj : j ≠ k) :
    lookupCount (setCount m k v) j = lookupCount m j := by
  induction m with
  | nil => simp [setCount, lookupCount, Ne.symm hj]
  | cons kv rest ih =>
    obtain ⟨k', v'⟩ := kv
    by_cases h : k' = k
    · subst h
      simp [setCount, lookupCount, Ne.symm hj]
    · simp only [setCount, lookupCount, if_neg h]
      by_cases h2 : k' = j <;> simp [h2, ih]

theorem lookupCount_eq_none (m : List (Nat × Nat)) (k : Nat)
    (h : k ∉ m.map Prod.fst) : lookupCount m k = none := by
  induction m with
  | nil => simp [lookupCount]
  | cons kv rest ih =>
    obtain ⟨k', v'⟩ := kv
    simp only [List.map_cons, List.mem_cons] at h
    push_neg at h
    simp [lookupCount, Ne.symm h.1, ih h.2]

theorem lookupCount_removeCount_self (m : List (Nat × Nat)) (k : Nat)
    (h : (m.map Prod.fst).Nodup) :
    lookupCount (removeCount m k) k = none := by
  induction m with
  | nil => simp [removeCount, lookupCount]
  | cons kv rest ih =>
    obtain ⟨k', v'⟩ := kv
    simp only [List.map_cons, List.nodup_cons] at h
    by_cases hk : k' = k
    · subst hk
      simpa [removeCount] using lookupCount_eq_none rest k' h.1
    · simp [removeCount, lookupCount, hk, ih h.2]

theorem lookupCount_removeCount_ne (m : List (Nat × Nat)) (k j : Nat) (hj : j ≠ k) :
    lookupCount (removeCount m k) j = lookupCount m j := by
  induction m with
  | nil => simp [removeCount]
  | cons kv rest ih =>
    obtain ⟨k', v'⟩ := kv
    by_cases hk : k' = k
    · subst hk
      simp [removeCount, lookupCount, Ne.symm hj]
    · simp only [removeCount, lookupCount, if_neg hk]
      by_cases h2 : k' = j <;> simp [h2, ih]

/-- The proposer state after a call that clears the minimum-height check:
the target's counter binding becomes its previous value (default 0) plus
one. -/
theorem is_ready_state_of_tall (p : PlateProposer) (track : Track)
    (plate : BoundingBox) (h : ¬ plate.height < p.min_plate_height) :
    (p.is_ready_for_capture track plate).2.2
      = { p with stable_tracks := setCount p.stable_tracks track.track_id ((lookupCount p.stable_tracks track.track_id).getD 0 + 1) } := by
  unfold PlateProposer.is_ready_for_capture
  simp only [if_neg h]
  split_ifs <;> rfl

/-! ### Claim theorems -/

/-- **C9.** Decomposing a bounding box into center `(cx, cy)`, width `w` and
height `h` and reconstructing via `(cx - w/2, cy - h/2, cx + w/2, cy + h/2)`
yields the original box. -/
theorem C9_bbox_center_roundtrip (b : BoundingBox) :
    BoundingBox.fromCenterSize b.center.1 b.center.2 b.width b.height = b := by
  cases b with
  | mk x1 y1 x2 y2 =>
    simp only [BoundingBox.fromCenterSize, BoundingBox.center, BoundingBox.width,
      BoundingBox.height, BoundingBox.mk.injEq]
    refine ⟨by ring, by ring, by ring, by ring⟩

/-- **C2.** `is_ready_for_capture` returns READY only when the track's
stability counter (after this call's increment) has reached
`stability_frames` and the plate height is at least `target_plate_height`;
concretely, with minimum 30, target 60 and 3 stability frames, feeding the
same track with a plate of height 60 (vehicle box of height 400) yields NOT
READY with zoom 1 on calls 1 and 2 and READY with zoom 1 on call 3. -/
theorem C2_ready_gate :
    (∀ (p : PlateProposer) (track : Track) (plate : BoundingBox),
        (p.is_ready_for_capture track plate).1 = true →
        p.stability_frames ≤
            (lookupCount (p.is_ready_for_capture track plate).2.2.stable_tracks
              track.track_id).getD 0
          ∧ p.target_plate_height ≤ plate.height)
    ∧ plate0.height = 60
    ∧ (c2call1.1, c2call1.2.1) = (false, 1)
    ∧ (c2call2.1, c2call2.2.1) = (false, 1)
    ∧ (c2call3.1, c2call3.2.1) = (true, 1) := by
  refine ⟨?_, by with_unfolding_all decide, by with_unfolding_all decide,
    by with_unfolding_all decide, by with_unfolding_all decide⟩
  intro p track plate hready
  by_cases h1 : plate.height < p.min_plate_height
  · simp [PlateProposer.is_ready_for_capture, h1] at hready
  · by_cases h2 :
      (lookupCount p.stable_tracks track.track_id).getD 0 + 1 < p.stability_frames
    · simp [PlateProposer.is_ready_for_capture, h1, h2] at hready
    · by_cases h3 : p.target_plate_height ≤ plate.height
      · rw [is_ready_state_of_tall p track plate h1]
        simp only [lookupCount_setCount_self, Option.getD_some]
        exact ⟨by omega, h3⟩
      · simp [PlateProposer.is_ready_for_capture, h1, h2, h3] at hready

/-- **C2 witness**: the gate theorem applied at the third scenario call,
where READY is actually returned. -/
theorem C2_ready_gate_witness :
    c2call2.2.2.stability_frames ≤
        (lookupCount c2call3.2.2.stable_tracks vehicleTrack0.track_id).getD 0
      ∧ c2call2.2.2.target_plate_height ≤ plate0.height :=
  C2_ready_gate.1 c2call2.2.2 vehicleTrack0 plate0 (by with_unfolding_all decide)

/-- **C3 counterexample.** With a plate of height 20 (below the 30-pixel
minimum), a call naming track 2 leaves the proposer state unchanged: track
2's counter is not incremented (the claim says every call increments it) and
track 1's counter keeps its value 5 (the claim says a call with a different
target zeroes it). -/
theorem C3_counterexample :
    (proposer1.is_ready_for_capture smallTrack smallPlate).2.2 = proposer1
    ∧ lookupCount
        (proposer1.is_ready_for_capture smallTrack smallPlate).2.2.stable_tracks 2
        ≠ some 1
    ∧ lookupCount
        (proposer1.is_ready_for_capture smallTrack smallPlate).2.2.stable_tracks 1
        = some 5 := by
  refine ⟨by with_unfolding_all decide, by with_unfolding_all decide,
    by with_unfolding_all decide⟩

/-- **C3 amended.** A call to `is_ready_for_capture` whose plate clears the
minimum height increments the target's counter and leaves every other
counter unchanged; a call below the minimum height leaves the whole state
unchanged; an explicit `reset_stability(id)` removes id's counter
(zeroing it) and leaves other counters unchanged. -/
theorem C3_stability_counter :
    (∀ (p : PlateProposer) (track : Track) (plate : BoundingBox),
        ¬ plate.height < p.min_plate_height →
        lookupCount (p.is_ready_for_capture track plate).2.2.stable_tracks
            track.track_id
          = some ((lookupCount p.stable_tracks track.track_id).getD 0 + 1)
        ∧ ∀ j, j ≠ track.track_id →
            lookupCount (p.is_ready_for_capture track plate).2.2.stable_tracks j
              = lookupCount p.stable_tracks j)
    ∧ (∀ (p : PlateProposer) (track : Track) (plate : BoundingBox),
        plate.height < p.min_plate_height →
        (p.is_ready_for_capture track plate).2.2 = p)
    ∧ (∀ (p : PlateProposer) (i : Nat),
        (p.stable_tracks.map Prod.fst).Nodup →
        lookupCount (p.reset_stability i).stable_tracks i = none)
    ∧ (∀ (p : PlateProposer) (i j : Nat), j ≠ i →
        lookupCount (p.reset_stability i).stable_tracks j
          = lookupCount p.stable_tracks j) := by
  refine ⟨?_, ?_, ?_, ?_⟩
  · intro p track plate h
    rw [is_ready_state_of_tall p track plate h]
    exact ⟨lookupCount_setCount_self _ _ _,
      fun j hj => lookupCount_setCount_ne _ _ _ _ hj⟩
  · intro p track plate h
    simp [PlateProposer.is_ready_for_capture, h]
  · intro p i h
    exact lookupCount_removeCount_self _ _ h
  · intro p i j hj
    exact lookupCount_removeCount_ne _ _ _ hj

/-- **C3 amended witness**: a tall-plate call for track 1 bumps its counter
from 5 to 6, and `reset_stability 1` clears it. -/
theorem C3_stability_counter_witness :
    lookupCount
        (proposer1.is_ready_for_capture vehicleTrack0 plate0).2.2.stable_tracks
        vehicleTrack0.track_id
      = some ((lookupCount proposer1.stable_tracks vehicleTrack0.track_id).getD 0 + 1)
    ∧ lookupCount (proposer1.reset_stability 1).stable_tracks 1 = none :=
  ⟨(C3_stability_counter.1 proposer1 vehicleTrack0 plate0
      (by with_unfolding_all decide)).1,
   C3_stability_counter.2.2.1 proposer1 1 (by decide)⟩

/-- **C7.** A `relative_move` arriving within `move_rate_limit_s` of the
previous accepted move returns false, issues no device command and leaves
the client state (in particular `last_move_time`) unchanged; an enclosing
`zoom_to_target` then leaves the software zoom unchanged. -/
theorem C7_rate_limit_refusal (c : PTZClientState) (now : ℚ)
    (hrl : now - c.last_move_time < c.move_rate_limit_s) :
    (∀ (devOk : Bool) (pan tilt zoom speed : ℚ),
        relative_move c now devOk pan tilt zoom speed = (false, c, []))
    ∧ (∀ (ctrl : PTZControllerState) (pm : PresetManagerState) (devOk : Bool)
        (th dh : ℚ),
        (zoom_to_target ⟨ctrl, c, pm⟩ now devOk th dh).2.1.ctrl.current_zoom
          = ctrl.current_zoom) := by
  have hmove : ∀ (devOk : Bool) (pan tilt zoom speed : ℚ),
      relative_move c now devOk pan tilt zoom speed = (false, c, []) := by
    intro devOk pan tilt zoom speed
    simp [relative_move, check_rate_limit, hrl]
  refine ⟨hmove, ?_⟩
  intro ctrl pm devOk th dh
  by_cases h0 : th ≤ 0
  · simp [zoom_to_target, h0]
  · by_cases h1 : 6 / 5 < dh / th
    · simp [zoom_to_target, h0, h1, hmove]
    · by_cases h2 : dh / th < 4 / 5
      · simp [zoom_to_target, h0, h1, h2, hmove]
      · simp [zoom_to_target, h0, h1, h2]

/-- **C7 witness**: the busy client (last move at t = 10, limit 2 s) refuses
a move at t = 11 and the zoom stays at its value. -/
theorem C7_rate_limit_refusal_witness :
    relative_move clientBusy 11 true (1 / 4) 0 0 (1 / 2) = (false, clientBusy, [])
    ∧ (zoom_to_target sysBusy 11 true 30 60).2.1.ctrl.current_zoom
        = sysBusy.ctrl.current_zoom :=
  ⟨(C7_rate_limit_refusal clientBusy 11 (by with_unfolding_all decide)).1 true
     (1 / 4) 0 0 (1 / 2),
   (C7_rate_limit_refusal clientBusy 11 (by with_unfolding_all decide)).2
     (mkController 50 (1 / 2) (1 / 2) (1 / 10)) pm0 true 30 60⟩

/-- **C6.** With a recorded last target position, a target inside the
hysteresis dead-zone is suppressed: `point_to_target` returns false, issues
no device command and changes nothing; outside the dead-zone it attempts a
relative move with `pan = (tx - W/2)/W` and `tilt = -(ty - H/2)/H`. -/
theorem C6_hysteresis (s : PTZSystem) (now : ℚ) (devOk : Bool)
    (tx ty W H lx ly : ℚ)
    (hlast : s.ctrl.last_target_position = some (lx, ly)) :
    ((|tx - lx| < s.ctrl.hysteresis_pixels ∧ |ty - ly| < s.ctrl.hysteresis_pixels) →
        point_to_target s now devOk tx ty W H = (false, s, []))
    ∧ (¬ (|tx - lx| < s.ctrl.hysteresis_pixels ∧ |ty - ly| < s.ctrl.hysteresis_pixels) →
        check_rate_limit s.client now = true →
        (point_to_target s now devOk tx ty W H).2.2
          = [PTZCmd.relativeMove (clampPM ((tx - W / 2) / W))
              (clampPM (-(ty - H / 2) / H)) (clampPM 0) s.ctrl.pan_speed]) := by
  constructor
  · rintro ⟨h1, h2⟩
    simp [point_to_target, hlast, h1, h2]
  · intro hout hrate
    have hb : (decide (|tx - lx| < s.ctrl.hysteresis_pixels) &&
        decide (|ty - ly| < s.ctrl.hysteresis_pixels)) = false := by
      rcases not_and_or.mp hout with h | h <;> simp [h]
    simp only [point_to_target, hlast, hb, Bool.false_eq_true, if_false]
    simp only [relative_move, hrate, not_true, if_neg, ite_false, if_false]
    cases devOk <;> simp

/-- **C6 witness**: after a successful point at (640, 360) with hysteresis
50, the target (660, 370) is suppressed and the target (800, 360) produces
the offset command. -/
theorem C6_hysteresis_witness :
    point_to_target sysAfterPoint 10 true 660 370 1280 720
        = (false, sysAfterPoint, [])
    ∧ (point_to_target sysAfterPoint 10 true 800 360 1280 720).2.2
        = [PTZCmd.relativeMove (clampPM ((800 - 1280 / 2) / 1280))
            (clampPM (-(360 - 720 / 2) / 720)) (clampPM 0)
            sysAfterPoint.ctrl.pan_speed] :=
  ⟨(C6_hysteresis sysAfterPoint 10 true 660 370 1280 720 640 360
      (by with_unfolding_all decide)).1 (by with_unfolding_all decide),
   (C6_hysteresis sysAfterPoint 10 true 800 360 1280 720 640 360
      (by with_unfolding_all decide)).2 (by with_unfolding_all decide)
      (by with_unfolding_all decide)⟩

/-- **C10.** With no last target position recorded (as right after
`PTZController.__init__`), the hysteresis check is bypassed: a device
command is attempted for any target coordinates, including a target exactly
at the frame center, whose pan and tilt offsets are zero. -/
theorem C10_first_call_bypasses_hysteresis (s : PTZSystem) (now : ℚ)
    (devOk : Bool) (tx ty W H : ℚ)
    (hnone : s.ctrl.last_target_position = none)
    (hrate : check_rate_limit s.client now = true) :
    ((point_to_target s now devOk tx ty W H).2.2
        = [PTZCmd.relativeMove (clampPM ((tx - W / 2) / W))
            (clampPM (-(ty - H / 2) / H)) (clampPM 0) s.ctrl.pan_speed])
    ∧ (∀ hy ps ts zs : ℚ, (mkController hy ps ts zs).last_target_position = none)
    ∧ (tx = W / 2 → ty = H / 2 →
        (point_to_target s now devOk tx ty W H).2.2
          = [PTZCmd.relativeMove 0 0 0 s.ctrl.pan_speed]) := by
  have hcmd : (point_to_target s now devOk tx ty W H).2.2
      = [PTZCmd.relativeMove (clampPM ((tx - W / 2) / W))
          (clampPM (-(ty - H / 2) / H)) (clampPM 0) s.ctrl.pan_speed] := by
    simp only [point_to_target, hnone, Bool.false_eq_true, if_false]
    simp only [relative_move, hrate, not_true, ite_false, if_false]
    cases devOk <;> simp
  refine ⟨hcmd, fun hy ps ts zs => rfl, ?_⟩
  intro htx hty
  subst htx hty
  rw [hcmd]
  norm_num [clampPM]

/-- **C10 witness**: the freshly constructed controller points at the exact
frame center of a 1280x720 frame and still attempts the (zero-offset)
move. -/
theorem C10_first_call_bypasses_hysteresis_witness :
    (point_to_target sys0 0 true 640 360 1280 720).2.2
      = [PTZCmd.relativeMove 0 0 0 sys0.ctrl.pan_speed] :=
  (C10_first_call_bypasses_hysteresis sys0 0 true 640 360 1280 720 rfl
      (by with_unfolding_all decide)).2.2 (by norm_num) (by norm_num)

/-- **C1 counterexample.** After one frame with a detection and one frame
without (max_age 1, min_hits 1), the tracker's update returns a confirmed
track whose `time_since_update` is 1, not 0. -/
theorem C1_counterexample :
    ∃ t ∈ tracker2.2, t.time_since_update ≠ 0 := by
  with_unfolding_all decide

/-- A helper exposing the double-filter shape of the confirmed-track list
returned by `VehicleTracker.update`. -/
theorem update_snd_shape (st : VehicleTracker) (dets : List Detection) :
    ∃ l : List Track,
      (st.update dets).2
        = (l.filter fun t => t.time_since_update ≤ st.max_age).filter
            fun t => st.min_hits ≤ t.hits :=
  ⟨_, rfl⟩

/-- **C1 amended.** Every track returned by `VehicleTracker.update`
satisfies `hits ≥ min_hits` and `time_since_update ≤ max_age` (a track can
be returned with `time_since_update > 0` when it was merely predicted this
frame). -/
theorem C1_returned_tracks (st : VehicleTracker) (dets : List Detection) :
    ∀ t ∈ (st.update dets).2,
      st.min_hits ≤ t.hits ∧ t.time_since_update ≤ st.max_age := by
  intro t ht
  obtain ⟨l, hl⟩ := update_snd_shape st dets
  rw [hl] at ht
  simp only [List.mem_filter, decide_eq_true_eq] at ht
  exact ⟨ht.2, ht.1.2⟩

/-- **C1 amended witness**: the track returned on the detection-free second
frame satisfies the amended bounds. -/
theorem C1_returned_tracks_witness :
    (VehicleTracker.update tracker0 [det0]).1.min_hits
        ≤ (tracker2.2.getD 0 freshTrack).hits
      ∧ (tracker2.2.getD 0 freshTrack).time_since_update
        ≤ (VehicleTracker.update tracker0 [det0]).1.max_age :=
  C1_returned_tracks (VehicleTracker.update tracker0 [det0]).1 []
    (tracker2.2.getD 0 freshTrack) (by with_unfolding_all decide)

/-! ### Track lifecycle lemmas -/

theorem Track.predict_hits (t : Track) : (Track.predict t).hits = t.hits := by
  unfold Track.predict
  split_ifs <;> rfl

theorem Track.predict_age (t : Track) : (Track.predict t).age = t.age + 1 := by
  unfold Track.predict
  split_ifs <;> rfl

theorem Track.update_hits (t : Track) (b : BoundingBox) (c : ℚ) :
    (Track.update t b c).hits = t.hits + 1 := rfl

theorem Track.update_age (t : Track) (b : BoundingBox) (c : ℚ) :
    (Track.update t b c).age = t.age := rfl

/-- Every track in the association loop's output is an input track, either
untouched or updated once with some detection box and confidence. -/
theorem associateLoop_tracks_mem (thr : ℚ) (dets : List (Nat × Detection)) :
    ∀ (ts : List Track) (used : List Nat) (t' : Track),
      t' ∈ (associateLoop thr dets ts used).1 →
      ∃ t ∈ ts, t' = t ∨ ∃ b c, t' = Track.update t b c := by
  intro ts
  induction ts with
  | nil =>
    intro used t' h
    simp [associateLoop] at h
  | cons t rest ih =>
    intro used t' h
    unfold associateLoop at h
    cases hbd : bestDet thr t.bbox dets used with
    | none =>
      rw [hbd] at h
      simp only [List.mem_cons] at h
      rcases h with rfl | h
      · exact ⟨t', List.mem_cons_self t' rest, Or.inl rfl⟩
      · obtain ⟨t0, ht0, hcase⟩ := ih used t' h
        exact ⟨t0, List.mem_cons_of_mem t ht0, hcase⟩
    | some id =>
      obtain ⟨i, d⟩ := id
      rw [hbd] at h
      simp only [List.mem_cons] at h
      rcases h with rfl | h
      · exact ⟨t, List.mem_cons_self t rest, Or.inr ⟨d.bbox, d.confidence, rfl⟩⟩
      · obtain ⟨t0, ht0, hcase⟩ := ih (i :: used) t' h
        exact ⟨t0, List.mem_cons_of_mem t ht0, hcase⟩

/-- Every track spawned for an unmatched detection is a fresh track. -/
theorem spawnNew_tracks_mem (used : List Nat) :
    ∀ (ds : List (Nat × Detection)) (next : Nat) (t' : Track),
      t' ∈ (spawnNew used ds next).1 →
      ∃ i b cls conf, t' = Track.new i b cls conf := by
  intro ds
  induction ds with
  | nil =>
    intro next t' h
    simp [spawnNew] at h
  | cons hd rest ih =>
    intro next t' h
    obtain ⟨i, d⟩ := hd
    unfold spawnNew at h
    by_cases hu : i ∈ used
    · rw [if_pos hu] at h
      exact ih next t' h
    · rw [if_neg hu] at h
      simp only [List.mem_cons] at h
      rcases h with rfl | h
      · exact ⟨next, d.bbox, d.cls, d.confidence, rfl⟩
      · exact ih (next + 1) t' h

/-- Every track stored after `VehicleTracker.update` descends from a
predicted input track (possibly updated once) or is freshly spawned. -/
theorem mem_update_tracks (st : VehicleTracker) (dets : List Detection)
    (t' : Track) (h : t' ∈ (st.update dets).1.tracks) :
    (∃ tp ∈ st.tracks.map Track.predict, t' = tp ∨ ∃ b c, t' = Track.update tp b c)
    ∨ (∃ i b cls conf, t' = Track.new i b cls conf) := by
  unfold VehicleTracker.update at h
  simp only [List.mem_filter, decide_eq_true_eq] at h
  by_cases hd : dets.isEmpty
  · rw [if_pos hd] at h
    exact Or.inl ⟨t', h.1, Or.inl rfl⟩
  · rw [if_neg hd] at h
    simp only [List.mem_append] at h
    rcases h.1 with h1 | h1
    · exact Or.inl (associateLoop_tracks_mem _ _ _ _ _ h1)
    · exact Or.inr (spawnNew_tracks_mem _ _ _ _ h1)

/-- **C4 counterexample.** A freshly spawned track has `age = 0 < hits = 1`,
so `age >= hits` fails right at spawn. -/
theorem C4_counterexample : ¬ freshTrack.hits ≤ freshTrack.age := by decide

/-- **C4 amended.** A freshly spawned track has age 0, hits 1,
time_since_update 0 and velocity (0, 0); for every track at every point in
its lifecycle `hits >= 1` and `age >= hits - 1` hold (the tracker's update
preserves these bounds for every stored track). -/
theorem C4_track_invariant :
    (∀ (i : Nat) (b : BoundingBox) (cls : VehicleClass) (conf : ℚ),
        (Track.new i b cls conf).age = 0 ∧ (Track.new i b cls conf).hits = 1
        ∧ (Track.new i b cls conf).time_since_update = 0
        ∧ (Track.new i b cls conf).velocity = (0, 0))
    ∧ (∀ (st : VehicleTracker) (dets : List Detection),
        (∀ t ∈ st.tracks, 1 ≤ t.hits ∧ t.hits ≤ t.age + 1) →
        ∀ t ∈ (st.update dets).1.tracks, 1 ≤ t.hits ∧ t.hits ≤ t.age + 1) := by
  refine ⟨fun i b cls conf => ⟨rfl, rfl, rfl, rfl⟩, ?_⟩
  intro st dets hinv t ht
  rcases mem_update_tracks st dets t ht with ⟨tp, htp, hcase⟩ | ⟨i, b, cls, conf, rfl⟩
  · obtain ⟨t0, ht0, rfl⟩ := List.mem_map.mp htp
    obtain ⟨h1, h2⟩ := hinv t0 ht0
    rcases hcase with rfl | ⟨b, c, rfl⟩
    · rw [Track.predict_hits, Track.predict_age]
      omega
    · rw [Track.update_hits, Track.update_age, Track.predict_hits, Track.predict_age]
      omega
  · exact ⟨le_refl 1, by simp [Track.new]⟩

/-- **C4 amended witness**: the track stored after two tracker updates
satisfies the amended bounds. -/
theorem C4_track_invariant_witness :
    1 ≤ (tracker2.1.tracks.getD 0 freshTrack).hits
    ∧ (tracker2.1.tracks.getD 0 freshTrack).hits
        ≤ (tracker2.1.tracks.getD 0 freshTrack).age + 1 :=
  C4_track_invariant.2 (VehicleTracker.update tracker0 [det0]).1 []
    (by with_unfolding_all decide) (tracker2.1.tracks.getD 0 freshTrack)
    (by with_unfolding_all decide)

/-- `point_to_target` emits either nothing or a single relative move. -/
theorem point_to_target_cmds_shape (s : PTZSystem) (now : ℚ) (devOk : Bool)
    (tx ty W H : ℚ) :
    (point_to_target s now devOk tx ty W H).2.2 = []
    ∨ ∃ a b c d, (point_to_target s now devOk tx ty W H).2.2
        = [PTZCmd.relativeMove a b c d] := by
  unfold point_to_target relative_move
  cases hl : s.ctrl.last_target_position with
  | none =>
    simp only [hl]
    split_ifs <;> simp
  | some q =>
    obtain ⟨lx, ly⟩ := q
    simp only [hl]
    split_ifs <;> simp

/-- **C8.** When the idle timeout has elapsed and the manager was active,
the next idle-monitor tick issues exactly one goto-preset to the configured
default preset; the successful goto triggers `mark_activity`, so the manager
is back to active with a refreshed activity clock, and a following tick
(within the timeout) issues nothing.  `point_to_target` never issues a
goto-preset; and if the goto had failed the manager would stay idle until a
successful point command marks activity. -/
theorem C8_idle_monitor (m : PresetManagerState) (c : PTZClientState) (now : ℚ)
    (p : Preset)
    (hen : m.idle_enabled = true)
    (hni : m.is_idle = false)
    (hto : m.idle_timeout_s < now - m.last_activity_time)
    (hdft : m.default_preset_id ≠ 0)
    (hfind : findPreset m.presets m.default_preset_id = some p)
    (hrate : check_rate_limit c now = true) :
    ((idle_tick m c now true).2.2 = [PTZCmd.gotoPreset m.default_preset_id]
      ∧ (idle_tick m c now true).1.is_idle = false
      ∧ (idle_tick m c now true).1.last_activity_time = now)
    ∧ (∀ (now2 : ℚ) (devOk2 : Bool), now2 - now ≤ m.idle_timeout_s →
        (idle_tick (idle_tick m c now true).1 (idle_tick m c now true).2.1
            now2 devOk2).2.2 = [])
    ∧ (∀ (s : PTZSystem) (now3 : ℚ) (devOk3 : Bool) (tx ty W H : ℚ),
        ∀ cmd ∈ (point_to_target s now3 devOk3 tx ty W H).2.2,
          cmd.isGotoPreset = false)
    ∧ (m.sweep_enabled = false →
        (idle_tick m c now false).1.is_idle = true
        ∧ ∀ (ctrl : PTZControllerState) (now3 tx ty W H : ℚ),
            ctrl.last_target_position = none →
            check_rate_limit (idle_tick m c now false).2.1 now3 = true →
            (point_to_target
                ⟨ctrl, (idle_tick m c now false).2.1, (idle_tick m c now false).1⟩
                now3 true tx ty W H).2.1.pm.is_idle = false) := by
  have hticktrue : idle_tick m c now true
      = ({ m with is_idle := false, last_activity_time := now },
         { c with last_move_time := now },
         [PTZCmd.gotoPreset m.default_preset_id]) := by
    unfold idle_tick goto_preset_by_id goto_preset mark_activity
    simp [hen, hni, hto, hdft, hfind, hrate]
  refine ⟨?_, ?_, ?_, ?_⟩
  · rw [hticktrue]
    exact ⟨rfl, rfl, rfl⟩
  · intro now2 devOk2 h2
    rw [hticktrue]
    unfold idle_tick
    simp [not_lt.mpr h2]
  · intro s now3 devOk3 tx ty W H cmd hcmd
    rcases point_to_target_cmds_shape s now3 devOk3 tx ty W H with hsh | ⟨a, b, c', d, hsh⟩
    · rw [hsh] at hcmd
      simp at hcmd
    · rw [hsh] at hcmd
      simp only [List.mem_singleton] at hcmd
      subst hcmd
      rfl
  · intro hsw
    have htickfalse : idle_tick m c now false
        = ({ m with is_idle := true }, c,
           [PTZCmd.gotoPreset m.default_preset_id]) := by
      unfold idle_tick goto_preset_by_id goto_preset
      simp [hen, hni, hto, hdft, hfind, hrate, hsw]
    refine ⟨by rw [htickfalse], ?_⟩
    intro ctrl now3 tx ty W H hlast hr3
    rw [htickfalse] at hr3 ⊢
    simp [point_to_target, hlast, relative_move, hr3, mark_activity]

/-- **C8 witness**: with a 1-second timeout, default preset 2 and last
activity at t = 0, the tick at t = 1.2 issues one goto-preset and ends
active. -/
theorem C8_idle_monitor_witness :
    (idle_tick pm0 client0 (12 / 10) true).2.2
        = [PTZCmd.gotoPreset pm0.default_preset_id]
    ∧ (idle_tick pm0 client0 (12 / 10) true).1.is_idle = false := by
  have h := C8_idle_monitor pm0 client0 (12 / 10)
    { token := 2, pan := 1 / 2, tilt := 0, zoom := 0 } rfl rfl
    (by with_unfolding_all decide) (by decide)
    (by with_unfolding_all decide) (by with_unfolding_all decide)
  exact ⟨h.1.1, h.1.2.1⟩

/-! ### Greedy-association lemmas -/

theorem enum_pairwise (dets : List Detection) :
    dets.enum.Pairwise fun a b => a.1 < b.1 := by
  have h1 : (dets.enum.map Prod.fst).Pairwise (· < ·) := by
    rw [List.enum_map_fst]
    exact List.pairwise_lt_range _
  exact List.pairwise_map.mp h1

/-- Specification of the inner scan `bestDetAux`: a returned detection is
unclaimed, beats the threshold, strictly beats every unclaimed
lower-indexed competitor (ties go to the lower index, which the strict
`iou > best_iou` test preserves), and is maximal among unclaimed
above-threshold competitors. -/
theorem bestDetAux_spec (thr : ℚ) (tb : BoundingBox) (used : List Nat) :
    ∀ (l : List (Nat × Detection)) (bIou : ℚ) (best : Option (Nat × Detection)),
      l.Pairwise (fun a b => a.1 < b.1) →
      (∀ i' d', best = some (i', d') →
        bIou = calculate_iou tb d'.bbox ∧ i' ∉ used
          ∧ thr < calculate_iou tb d'.bbox ∧ ∀ je ∈ l, i' < je.1) →
      ∀ i d, bestDetAux thr tb used l bIou best = some (i, d) →
        i ∉ used ∧ thr < calculate_iou tb d.bbox
        ∧ (best = some (i, d) ∧ bIou = calculate_iou tb d.bbox
            ∨ ((i, d) ∈ l ∧ bIou < calculate_iou tb d.bbox))
        ∧ (∀ j e, (j, e) ∈ l → j ∉ used → j < i →
            calculate_iou tb e.bbox < calculate_iou tb d.bbox)
        ∧ (∀ j e, (j, e) ∈ l → j ∉ used → j ≠ i → thr < calculate_iou tb e.bbox →
            calculate_iou tb e.bbox ≤ calculate_iou tb d.bbox) := by
  intro l
  induction l with
  | nil =>
    intro bIou best hpw hbest i d hres
    simp only [bestDetAux] at hres
    obtain ⟨h1, h2, h3, _⟩ := hbest i d hres
    exact ⟨h2, h3, Or.inl ⟨hres, h1⟩, by simp, by simp⟩
  | cons hd rest ih =>
    intro bIou best hpw hbest i d hres
    obtain ⟨k, e⟩ := hd
    rw [List.pairwise_cons] at hpw
    obtain ⟨hklt, hpw'⟩ := hpw
    have hbestR : ∀ i' d', best = some (i', d') →
        bIou = calculate_iou tb d'.bbox ∧ i' ∉ used
          ∧ thr < calculate_iou tb d'.bbox ∧ ∀ je ∈ rest, i' < je.1 := by
      intro i' d' h'
      obtain ⟨a1, a2, a3, a4⟩ := hbest i' d' h'
      exact ⟨a1, a2, a3, fun je hje => a4 je (List.mem_cons_of_mem _ hje)⟩
    simp only [bestDetAux] at hres
    by_cases hk : k ∈ used
    · rw [if_pos hk] at hres
      obtain ⟨c1, c2, c3, c4, c5⟩ := ih bIou best hpw' hbestR i d hres
      refine ⟨c1, c2, ?_, ?_, ?_⟩
      · rcases c3 with h | ⟨hmem, hlt⟩
        · exact Or.inl h
        · exact Or.inr ⟨List.mem_cons_of_mem _ hmem, hlt⟩
      · intro j e2 hje hju hji
        rcases List.mem_cons.mp hje with heq2 | hmem
        · rw [Prod.mk.injEq] at heq2
          obtain ⟨rfl, rfl⟩ := heq2
          exact absurd hk hju
        · exact c4 j e2 hmem hju hji
      · intro j e2 hje hju hjne hthr
        rcases List.mem_cons.mp hje with heq2 | hmem
        · rw [Prod.mk.injEq] at heq2
          obtain ⟨rfl, rfl⟩ := heq2
          exact absurd hk hju
        · exact c5 j e2 hmem hju hjne hthr
    · rw [if_neg hk] at hres
      by_cases ht : bIou < calculate_iou tb e.bbox ∧ thr < calculate_iou tb e.bbox
      · rw [if_pos ht] at hres
        have hbestT : ∀ i' d', some (k, e) = some (i', d') →
            calculate_iou tb e.bbox = calculate_iou tb d'.bbox ∧ i' ∉ used
              ∧ thr < calculate_iou tb d'.bbox ∧ ∀ je ∈ rest, i' < je.1 := by
          intro i' d' h'
          injection h' with h2
          rw [Prod.mk.injEq] at h2
          obtain ⟨rfl, rfl⟩ := h2
          exact ⟨rfl, hk, ht.2, fun je hje => hklt je hje⟩
        obtain ⟨c1, c2, c3, c4, c5⟩ :=
          ih (calculate_iou tb e.bbox) (some (k, e)) hpw' hbestT i d hres
        refine ⟨c1, c2, ?_, ?_, ?_⟩
        · rcases c3 with ⟨hseq, _⟩ | ⟨hmem, hlt⟩
          · injection hseq with h2
            rw [Prod.mk.injEq] at h2
            obtain ⟨rfl, rfl⟩ := h2
            exact Or.inr ⟨List.mem_cons_self _ _, ht.1⟩
          · exact Or.inr ⟨List.mem_cons_of_mem _ hmem, lt_trans ht.1 hlt⟩
        · intro j e2 hje hju hji
          rcases List.mem_cons.mp hje with heq2 | hmem
          · rw [Prod.mk.injEq] at heq2
            obtain ⟨rfl, rfl⟩ := heq2
            rcases c3 with ⟨hseq, _⟩ | ⟨_, hlt2⟩
            · injection hseq with h2
              have hki : j = i := congrArg Prod.fst h2
              exact absurd hji (by omega)
            · exact hlt2
          · exact c4 j e2 hmem hju hji
        · intro j e2 hje hju hjne hthr
          rcases List.mem_cons.mp hje with heq2 | hmem
          · rw [Prod.mk.injEq] at heq2
            obtain ⟨rfl, rfl⟩ := heq2
            rcases c3 with ⟨hseq, _⟩ | ⟨_, hlt2⟩
            · injection hseq with h2
              have hki : j = i := congrArg Prod.fst h2
              exact absurd hki hjne
            · exact le_of_lt hlt2
          · exact c5 j e2 hmem hju hjne hthr
      · rw [if_neg ht] at hres
        obtain ⟨c1, c2, c3, c4, c5⟩ := ih bIou best hpw' hbestR i d hres
        have hskip : calculate_iou tb e.bbox ≤ bIou ∨ calculate_iou tb e.bbox ≤ thr := by
          rcases not_and_or.mp ht with h | h
          · exact Or.inl (not_lt.mp h)
          · exact Or.inr (not_lt.mp h)
        refine ⟨c1, c2, ?_, ?_, ?_⟩
        · rcases c3 with h | ⟨hmem, hlt⟩
          · exact Or.inl h
          · exact Or.inr ⟨List.mem_cons_of_mem _ hmem, hlt⟩
        · intro j e2 hje hju hji
          rcases List.mem_cons.mp hje with heq2 | hmem
          · rw [Prod.mk.injEq] at heq2
            obtain ⟨rfl, rfl⟩ := heq2
            rcases c3 with ⟨hseq, _⟩ | ⟨_, hlt2⟩
            · have := (hbest i d hseq).2.2.2 (j, e2) (List.mem_cons_self _ _)
              exact absurd hji (by omega)
            · rcases hskip with h | h
              · exact lt_of_le_of_lt h hlt2
              · exact lt_of_le_of_lt h c2
          · exact c4 j e2 hmem hju hji
        · intro j e2 hje hju hjne hthr
          rcases List.mem_cons.mp hje with heq2 | hmem
          · rw [Prod.mk.injEq] at heq2
            obtain ⟨rfl, rfl⟩ := heq2
            have hble : calculate_iou tb e2.bbox ≤ bIou := by
              rcases hskip with h | h
              · exact h
              · exact absurd hthr (not_lt.mpr h)
            rcases c3 with ⟨hseq, hio⟩ | ⟨_, hlt2⟩
            · rw [hio] at hble
              exact hble
            · exact le_of_lt (lt_of_le_of_lt hble hlt2)
          · exact c5 j e2 hmem hju hjne hthr

/-- The best-detection scan over the enumerated detections: the choice is an
unclaimed above-threshold detection of maximal IoU, and among equal-IoU
candidates it has the lowest index. -/
theorem bestDet_spec (thr : ℚ) (tb : BoundingBox) (dets : List Detection)
    (used : List Nat) (i : Nat) (d : Detection)
    (h : bestDet thr tb dets.enum used = some (i, d)) :
    i ∉ used ∧ (i, d) ∈ dets.enum ∧ thr < calculate_iou tb d.bbox
    ∧ (∀ j e, (j, e) ∈ dets.enum → j ∉ used → j < i →
        calculate_iou tb e.bbox < calculate_iou tb d.bbox)
    ∧ (∀ j e, (j, e) ∈ dets.enum → j ∉ used → thr < calculate_iou tb e.bbox →
        calculate_iou tb e.bbox ≤ calculate_iou tb d.bbox) := by
  obtain ⟨c1, c2, c3, c4, c5⟩ := bestDetAux_spec thr tb used dets.enum 0 none
    (enum_pairwise dets) (by intro i' d' h'; cases h') i d h
  rcases c3 with ⟨h', _⟩ | ⟨hmem, _⟩
  · cases h'
  · refine ⟨c1, hmem, c2, c4, ?_⟩
    intro j e hje hju hthr
    by_cases hij : j = i
    · subst hij
      have h1 := List.mk_mem_enum_iff_getElem?.mp hje
      have h2 := List.mk_mem_enum_iff_getElem?.mp hmem
      rw [h1] at h2
      injection h2 with h3
      rw [h3]
    · exact c5 j e hje hju hij hthr

/-- The claimed-detection accumulator stays duplicate-free: each match
claims a detection index that was not claimed before. -/
theorem associateLoop_used_nodup (thr : ℚ) (dets : List Detection) :
    ∀ (ts : List Track) (used : List Nat), used.Nodup →
      (associateLoop thr dets.enum ts used).2.1.Nodup := by
  intro ts
  induction ts with
  | nil =>
    intro used h
    simpa [associateLoop] using h
  | cons t rest ih =>
    intro used h
    unfold associateLoop
    cases hbd : bestDet thr t.bbox dets.enum used with
    | none => exact ih used h
    | some id =>
      obtain ⟨i, d⟩ := id
      have hni : i ∉ used := (bestDet_spec thr t.bbox dets used i d hbd).1
      exact ih (i :: used) (List.nodup_cons.mpr ⟨hni, h⟩)

/-- Matched track ids are reported in scan order: they form a sublist of the
track ids in storage order. -/
theorem associateLoop_matched_sublist (thr : ℚ) (dets : List (Nat × Detection)) :
    ∀ (ts : List Track) (used : List Nat),
      List.Sublist (associateLoop thr dets ts used).2.2 (ts.map Track.track_id) := by
  intro ts
  induction ts with
  | nil =>
    intro used
    simp [associateLoop]
  | cons t rest ih =>
    intro used
    unfold associateLoop
    cases hbd : bestDet thr t.bbox dets used with
    | none => exact List.Sublist.cons _ (ih used)
    | some id =>
      obtain ⟨i, d⟩ := id
      exact List.Sublist.cons₂ _ (ih (i :: used))

theorem Track.predict_id (t : Track) : (Track.predict t).track_id = t.track_id := by
  unfold Track.predict
  split_ifs <;> rfl

theorem Track.update_id (t : Track) (b : BoundingBox) (c : ℚ) :
    (Track.update t b c).track_id = t.track_id := rfl

/-- Association never changes which track sits where: the id sequence of the
output tracks is the id sequence of the input tracks. -/
theorem associateLoop_map_id (thr : ℚ) (dets : List (Nat × Detection)) :
    ∀ (ts : List Track) (used : List Nat),
      (associateLoop thr dets ts used).1.map Track.track_id
        = ts.map Track.track_id := by
  intro ts
  induction ts with
  | nil =>
    intro used
    simp [associateLoop]
  | cons t rest ih =>
    intro used
    unfold associateLoop
    cases hbd : bestDet thr t.bbox dets used with
    | none =>
      simp only [List.map_cons]
      rw [ih used]
    | some id =>
      obtain ⟨i, d⟩ := id
      simp only [List.map_cons, Track.update_id]
      rw [ih (i :: used)]

/-- Spawned tracks carry strictly increasing fresh ids in `[next, final)`,
and the final id counter never decreases. -/
theorem spawnNew_ids (used : List Nat) :
    ∀ (ds : List (Nat × Detection)) (next : Nat),
      next ≤ (spawnNew used ds next).2
      ∧ (spawnNew used ds next).1.Pairwise (fun a b => a.track_id < b.track_id)
      ∧ ∀ t ∈ (spawnNew used ds next).1,
          next ≤ t.track_id ∧ t.track_id < (spawnNew used ds next).2 := by
  intro ds
  induction ds with
  | nil =>
    intro next
    exact ⟨le_refl _, List.Pairwise.nil, by simp [spawnNew]⟩
  | cons hd rest ih =>
    intro next
    obtain ⟨i, d⟩ := hd
    by_cases hu : i ∈ used
    · simpa [spawnNew, hu] using ih next
    · obtain ⟨b1, b2, b3⟩ := ih (next + 1)
      have hshape : spawnNew used ((i, d) :: rest) next
          = (Track.new next d.bbox d.cls d.confidence :: (spawnNew used rest (next + 1)).1,
             (spawnNew used rest (next + 1)).2) := by
        simp [spawnNew, hu]
      rw [hshape]
      refine ⟨by omega, ?_, ?_⟩
      · refine List.pairwise_cons.mpr ⟨?_, b2⟩
        intro t' ht'
        have := (b3 t' ht').1
        simp only [Track.new]
        omega
      · intro t' ht'
        rcases List.mem_cons.mp ht' with rfl | hm
        · exact ⟨le_refl _, by simpa [Track.new] using b1⟩
        · obtain ⟨hb, hc⟩ := b3 t' hm
          exact ⟨by omega, hc⟩

/-- **C5.** Within one `update`, greedy IoU association assigns each
detection to at most one track (claimed indices are duplicate-free) and
each track to at most one detection (matched ids are strictly ascending,
following the scan of the stored tracks in ascending-id order); the
per-track choice takes the unclaimed above-threshold detection of maximal
IoU, ties broken by ascending detection index; and tracker updates keep the
stored tracks sorted by ascending id (so the dictionary scan order is
ascending id). -/
theorem C5_greedy_association (thr : ℚ) (dets : List Detection) (ts : List Track)
    (hsorted : ts.Pairwise fun a b => a.track_id < b.track_id) :
    (associateLoop thr dets.enum ts []).2.1.Nodup
    ∧ List.Sublist (associateLoop thr dets.enum ts []).2.2 (ts.map Track.track_id)
    ∧ (associateLoop thr dets.enum ts []).2.2.Pairwise (· < ·)
    ∧ (∀ (tb : BoundingBox) (used : List Nat) (i : Nat) (d : Detection),
        bestDet thr tb dets.enum used = some (i, d) →
        i ∉ used ∧ (i, d) ∈ dets.enum ∧ thr < calculate_iou tb d.bbox
        ∧ (∀ j e, (j, e) ∈ dets.enum → j ∉ used → j < i →
            calculate_iou tb e.bbox < calculate_iou tb d.bbox)
        ∧ (∀ j e, (j, e) ∈ dets.enum → j ∉ used → thr < calculate_iou tb e.bbox →
            calculate_iou tb e.bbox ≤ calculate_iou tb d.bbox))
    ∧ (∀ st : VehicleTracker,
        st.tracks.Pairwise (fun a b => a.track_id < b.track_id) →
        (∀ t ∈ st.tracks, t.track_id < st.next_id) →
        (st.update dets).1.tracks.Pairwise (fun a b => a.track_id < b.track_id)
        ∧ ∀ t ∈ (st.update dets).1.tracks,
            t.track_id < (st.update dets).1.next_id) := by
  have hmap : ∀ st : VehicleTracker,
      (st.tracks.map Track.predict).map Track.track_id = st.tracks.map Track.track_id := by
    intro st
    rw [List.map_map]
    exact List.map_congr_left fun t _ => Track.predict_id t
  refine ⟨?_, ?_, ?_, ?_, ?_⟩
  · exact associateLoop_used_nodup thr dets ts [] List.nodup_nil
  · exact associateLoop_matched_sublist thr dets.enum ts []
  · refine List.Pairwise.sublist (associateLoop_matched_sublist thr dets.enum ts []) ?_
    exact List.pairwise_map.mpr hsorted
  · intro tb used i d h
    exact bestDet_spec thr tb dets used i d h
  · intro st h1 h2
    have hsortBase : (st.tracks.map Track.predict).map Track.track_id
        = st.tracks.map Track.track_id := hmap st
    -- the stored list after update is a filter of the associated list
    have hfilter : ∀ (l : List Track),
        l.Pairwise (fun a b => a.track_id < b.track_id) →
        (l.filter fun t => t.time_since_update ≤ st.max_age).Pairwise
          (fun a b => a.track_id < b.track_id) :=
      fun l hp => List.Pairwise.sublist (List.filter_sublist l) hp
    by_cases hd : dets.isEmpty
    · have hshape : (st.update dets).1.tracks
          = (st.tracks.map Track.predict).filter
              fun t => t.time_since_update ≤ st.max_age := by
        simp only [VehicleTracker.update, hd, if_true]
      have hnext : (st.update dets).1.next_id = st.next_id := by
        simp only [VehicleTracker.update, hd, if_true]
      have hsortP : (st.tracks.map Track.predict).Pairwise
          (fun a b => a.track_id < b.track_id) := by
        rw [← List.pairwise_map, hsortBase, List.pairwise_map]
        exact h1
      refine ⟨by rw [hshape]; exact hfilter _ hsortP, ?_⟩
      intro t ht
      rw [hshape] at ht
      rw [hnext]
      have ht' := (List.filter_sublist _).subset ht
      obtain ⟨t0, ht0, rfl⟩ := List.mem_map.mp ht'
      rw [Track.predict_id]
      exact h2 t0 ht0
    · have hshape : (st.update dets).1.tracks
          = (((associateLoop st.iou_threshold dets.enum (st.tracks.map Track.predict) []).1
              ++ (spawnNew (associateLoop st.iou_threshold dets.enum
                    (st.tracks.map Track.predict) []).2.1 dets.enum st.next_id).1).filter
              fun t => t.time_since_update ≤ st.max_age) := by
        simp only [VehicleTracker.update, hd, Bool.false_eq_true, if_false]
      have hnext : (st.update dets).1.next_id
          = (spawnNew (associateLoop st.iou_threshold dets.enum
              (st.tracks.map Track.predict) []).2.1 dets.enum st.next_id).2 := by
        simp only [VehicleTracker.update, hd, Bool.false_eq_true, if_false]
      have hLid : (associateLoop st.iou_threshold dets.enum
            (st.tracks.map Track.predict) []).1.map Track.track_id
          = st.tracks.map Track.track_id := by
        rw [associateLoop_map_id, hsortBase]
      obtain ⟨s1, s2, s3⟩ := spawnNew_ids (associateLoop st.iou_threshold dets.enum
        (st.tracks.map Track.predict) []).2.1 dets.enum st.next_id
      have hLsort : (associateLoop st.iou_threshold dets.enum
            (st.tracks.map Track.predict) []).1.Pairwise
          (fun a b => a.track_id < b.track_id) := by
        rw [← List.pairwise_map, hLid, List.pairwise_map]
        exact h1
      have hLbound : ∀ t ∈ (associateLoop st.iou_threshold dets.enum
            (st.tracks.map Track.predict) []).1, t.track_id < st.next_id := by
        intro t ht
        have : t.track_id ∈ st.tracks.map Track.track_id := by
          rw [← hLid]
          exact List.mem_map_of_mem Track.track_id ht
        obtain ⟨t0, ht0, hid⟩ := List.mem_map.mp this
        rw [← hid]
        exact h2 t0 ht0
      have happ : ((associateLoop st.iou_threshold dets.enum
              (st.tracks.map Track.predict) []).1
            ++ (spawnNew (associateLoop st.iou_threshold dets.enum
                  (st.tracks.map Track.predict) []).2.1 dets.enum st.next_id).1).Pairwise
          (fun a b => a.track_id < b.track_id) := by
        rw [List.pairwise_append]
        refine ⟨hLsort, s2, ?_⟩
        intro a ha b hb
        have h3 := hLbound a ha
        have h4 := (s3 b hb).1
        omega
      refine ⟨by rw [hshape]; exact hfilter _ happ, ?_⟩
      intro t ht
      rw [hshape] at ht
      rw [hnext]
      have ht' := (List.filter_sublist _).subset ht
      rcases List.mem_append.mp ht' with hm | hm
      · have h3 := hLbound t hm
        omega
      · exact (s3 t hm).2

/-- **C5 witness**: the two-track, two-detection scenario (tracks at x = 0
and x = 100, detections shifted by 5) satisfies the association
invariants. -/
theorem C5_greedy_association_witness :
    (associateLoop (3 / 10) c5dets.enum c5tracks []).2.1.Nodup
    ∧ (associateLoop (3 / 10) c5dets.enum c5tracks []).2.2.Pairwise (· < ·) := by
  have h := C5_greedy_association (3 / 10) c5dets c5tracks
    (by with_unfolding_all decide)
  exact ⟨h.1, h.2.2.1⟩

end ANPR
